import Mathlib

/-! deploy-dashboard agent: the deployment pipeline of `agent/main.go`

A shallow embedding of `handleDeploy` and of the goroutine it launches.
The goroutine talks to the outside world (filesystem, the `docker` process,
the admin panel); the embedding makes every such call an `Effect` and returns
the sequence of effects in program order.  What the outside world answers is
an input: a `StepOutcomes` record holding the error (if any) of each fallible
call and the output captured from the external command.  The handler is the
sequence of steps of its own thread; `runs` gives the executions in which the
goroutine started by a `go` step proceeds alongside that thread.
-/

namespace Agent

/-- Configuration record `Config` (main.go 22-27). -/
structure Config where
  AdminPanelURL : String
  VPSID : String
  APIKey : String
  ReportInterval : Int

/-- Request body `DeployRequest` (main.go 37-42).  The Go map `EnvVars` is kept
as the sequence of its entries in the order the `range` loop visits them. -/
structure DeployRequest where
  DeploymentID : Int
  Name : String
  DockerCompose : String
  EnvVars : List (String × String)
  deriving DecidableEq

/-- Log entry `DeploymentLog` (main.go 44-47). -/
structure DeploymentLog where
  Level : String
  Message : String
  deriving DecidableEq

/-- Calls the goroutine makes to the outside world, in the source's names. -/
inductive Effect where
  | updateDeploymentStatus (deploymentID : Int) (status : String)
      (logs : List DeploymentLog)
  | MkdirAll (path : String)
  | WriteFile (name : String) (data : String)
  | Run (argv : List String) (dir : String)
  | RemoveAll (path : String)
  deriving DecidableEq

/-- Answers of the outside world to the fallible calls of one pipeline run:
the error message of `os.MkdirAll`, of the two `os.WriteFile` calls and of
`cmd.Run` (`none` when the call succeeds), and the captured output buffers. -/
structure StepOutcomes where
  mkdirErr : Option String
  composeErr : Option String
  envErr : Option String
  runErr : Option String
  stdout : String
  stderr : String

/-- Rendering of `fmt.Sprintf("%d", n)`: decimal digits, `-` in front of a
negative number. -/
def sprintfD (n : Int) : String := toString n

/-- Two-element `filepath.Join` on the paths built here: the elements are
non-empty and hold no `.`/`..` component, no doubled or trailing separator, so
the cleaning pass leaves the joined path as it is. -/
def filepathJoin (dir file : String) : String := dir ++ "/" ++ file

/-- Work directory of a deployment (main.go 187). -/
def workDirOf (deploymentID : Int) : String :=
  filepathJoin "/tmp" ("deploy-" ++ sprintfD deploymentID)

/-- Content of the `.env` file (main.go 207-210): the builder receives
`key=value\n` for each entry visited by the `range` loop. -/
def envContent (envVars : List (String × String)) : String :=
  envVars.foldl (fun acc kv => acc ++ (kv.1 ++ "=" ++ kv.2 ++ "\n")) ""

/-- Argument vector handed to `exec.Command` (main.go 219). -/
def commandArgv (composeFile name : String) : List String :=
  ["docker", "stack", "deploy", "-c", composeFile, name]

/-- Execution step (main.go 219-243). -/
def execute (req : DeployRequest) (o : StepOutcomes) (workDir composeFile : String)
    (logs : List DeploymentLog) : List Effect :=
  let logs := logs ++ [⟨"info",
    "Executing: docker stack deploy -c docker-compose.yml " ++ req.Name⟩]
  let pre := [Effect.updateDeploymentStatus req.DeploymentID "deploying" logs,
              Effect.Run (commandArgv composeFile req.Name) workDir]
  match o.runErr with
  | some err =>
    let logs := logs ++ [⟨"error", "Deployment failed: " ++ err⟩]
    let logs := if o.stderr ≠ "" then logs ++ [⟨"error", o.stderr⟩] else logs
    pre ++ [Effect.updateDeploymentStatus req.DeploymentID "failed" logs]
  | none =>
    let logs := if o.stdout ≠ "" then logs ++ [⟨"info", o.stdout⟩] else logs
    let logs := logs ++ [⟨"info", "Deployment completed successfully"⟩]
    pre ++ [Effect.updateDeploymentStatus req.DeploymentID "deployed" logs]

/-- Materialisation of the workspace (main.go 195-217), followed by the
execution step when nothing failed. -/
def materialize (req : DeployRequest) (o : StepOutcomes) (workDir : String)
    (logs : List DeploymentLog) : List Effect :=
  let composeFile := filepathJoin workDir "docker-compose.yml"
  let wr := [Effect.WriteFile composeFile req.DockerCompose]
  match o.composeErr with
  | some err =>
    let logs := logs ++ [⟨"error", "Failed to write compose file: " ++ err⟩]
    wr ++ [Effect.updateDeploymentStatus req.DeploymentID "failed" logs]
  | none =>
    let logs := logs ++ [⟨"info", "Docker compose file created"⟩]
    let pre := wr ++ [Effect.updateDeploymentStatus req.DeploymentID "deploying" logs]
    let envFile := filepathJoin workDir ".env"
    if req.EnvVars.length > 0 then
      let pre := pre ++ [Effect.WriteFile envFile (envContent req.EnvVars)]
      match o.envErr with
      | some err =>
        let logs := logs ++ [⟨"error", "Failed to write env file: " ++ err⟩]
        pre ++ [Effect.updateDeploymentStatus req.DeploymentID "failed" logs]
      | none =>
        let logs := logs ++ [⟨"info", "Environment variables configured"⟩]
        pre ++ execute req o workDir composeFile logs
    else
      pre ++ execute req o workDir composeFile logs

/-- The goroutine launched by `handleDeploy` (main.go 181-244).  The deferred
`os.RemoveAll(workDir)` is registered once `os.MkdirAll` has succeeded and runs
when the function body returns, whichever `return` is taken. -/
def deployPipeline (req : DeployRequest) (o : StepOutcomes) : List Effect :=
  let logs : List DeploymentLog := []
  let logs := logs ++ [⟨"info", "Starting deployment"⟩]
  let workDir := workDirOf req.DeploymentID
  let pre := [Effect.updateDeploymentStatus req.DeploymentID "deploying" logs,
              Effect.MkdirAll workDir]
  match o.mkdirErr with
  | some err =>
    let logs := logs ++ [⟨"error", "Failed to create work directory: " ++ err⟩]
    pre ++ [Effect.updateDeploymentStatus req.DeploymentID "failed" logs]
  | none =>
    pre ++ materialize req o workDir logs ++ [Effect.RemoveAll workDir]

/-- Status and log of every `updateDeploymentStatus` call of a run, in order. -/
def reports : List Effect → List (String × List DeploymentLog)
  | [] => []
  | Effect.updateDeploymentStatus _ status logs :: rest => (status, logs) :: reports rest
  | _ :: rest => reports rest

/-- Inbound HTTP request, reduced to what `handleDeploy` reads. -/
structure Request where
  Method : String
  Authorization : String
  Body : String

/-- What `handleDeploy` writes back: `http.Error` sends a status code with a
plain-text message, the success path sends a JSON object with status 200. -/
inductive Response where
  | error (code : Nat) (message : String)
  | json (code : Nat) (fields : List (String × String))
  deriving DecidableEq

/-- Steps of the thread serving one request, in program order: `go` is the
statement `go func() { ... }()` of main.go 181, which starts the goroutine for
the decoded request and lets the thread continue at once; `respond` writes the
HTTP answer; `call` is the plain call `func() { ... }()`, which returns only when
the pipeline has finished and which the handler does not use. -/
inductive HandlerStep where
  | go (req : DeployRequest)
  | call (req : DeployRequest)
  | respond (resp : Response)
  deriving DecidableEq

/-- Handler `handleDeploy` (main.go 161-251), as the steps of its thread.
`decode` stands for `json.NewDecoder(r.Body).Decode(&req)`: `none` when it
returns an error. -/
def handleDeploy (config : Config) (decode : String → Option DeployRequest)
    (r : Request) : List HandlerStep :=
  if r.Method ≠ "POST" then
    [HandlerStep.respond (Response.error 405 "Method not allowed")]
  else if r.Authorization ≠ "Bearer " ++ config.APIKey then
    [HandlerStep.respond (Response.error 401 "Unauthorized")]
  else
    match decode r.Body with
    | none => [HandlerStep.respond (Response.error 400 "Invalid request body")]
    | some req =>
      [HandlerStep.go req,
       HandlerStep.respond (Response.json 200 [("deploymentId", sprintfD req.DeploymentID),
                                               ("message", "Deployment initiated")])]

/-- What an observer of the agent sees: the handler thread writing its answer, or
the goroutine performing one of its effects. -/
inductive Event where
  | answer (resp : Response)
  | effect (e : Effect)
  deriving DecidableEq

/-- Interleavings of `x :: xs` with a second sequence, given the interleavings
`r` of `xs` with any sequence. -/
def weave {α : Type} (x : α) (xs : List α) (r : List α → List (List α)) :
    List α → List (List α)
  | [] => [x :: xs]
  | y :: ys => (r (y :: ys)).map (fun t => x :: t) ++ (weave x xs r ys).map (fun t => y :: t)

/-- All interleavings of two sequences: each keeps its own order. -/
def interleavings {α : Type} : List α → List α → List (List α)
  | [], ys => [ys]
  | x :: xs, ys => weave x xs (interleavings xs) ys

/-- Executions of a handler thread under the step outcomes `o`.  A `respond`
step is one event of the thread.  A `call` step performs all effects of
`deployPipeline` before the thread goes on.  A `go` step starts the goroutine and
does not wait for it: the effects of `deployPipeline` interleave in every
possible way with what the thread does after the `go` statement. -/
def runs (o : StepOutcomes) : List HandlerStep → List (List Event)
  | [] => [[]]
  | HandlerStep.respond resp :: rest => (runs o rest).map (fun t => Event.answer resp :: t)
  | HandlerStep.call req :: rest =>
    (runs o rest).map (fun t => (deployPipeline req o).map Event.effect ++ t)
  | HandlerStep.go req :: rest =>
    (runs o rest).flatMap
      (fun t => interleavings ((deployPipeline req o).map Event.effect) t)

/-! ## Observations on a run -/

/-- Paths handed to `os.RemoveAll` during a run, in order. -/
def cleanups : List Effect → List String
  | [] => []
  | Effect.RemoveAll path :: rest => path :: cleanups rest
  | _ :: rest => cleanups rest

/-- Files written during a run, in order. -/
def writes : List Effect → List (String × String)
  | [] => []
  | Effect.WriteFile name data :: rest => (name, data) :: writes rest
  | _ :: rest => writes rest

/-- Commands run during a run, in order. -/
def commands : List Effect → List (List String × String)
  | [] => []
  | Effect.Run argv dir :: rest => (argv, dir) :: commands rest
  | _ :: rest => commands rest

/-- Statuses of the reports of a run, in order. -/
def statuses (req : DeployRequest) (o : StepOutcomes) : List String :=
  (reports (deployPipeline req o)).map Prod.fst

/-- Strict extension of a log: the earlier log is an initial segment of the
later one and the later one is longer. -/
def StrictlyExtends (a b : List DeploymentLog) : Prop := a <+: b ∧ a.length < b.length

/-- Lines of a text: each `\n` ends a line; characters after the last `\n`, if
any, form a final line.  `cur` holds the current line, last character first. -/
def fileLinesAux : List Char → List Char → List (List Char)
  | cur, [] => if cur = [] then [] else [cur.reverse]
  | cur, c :: cs =>
    if c = '\n' then cur.reverse :: fileLinesAux [] cs else fileLinesAux (c :: cur) cs

/-- Lines of a file content. -/
def fileLines (content : String) : List String :=
  (fileLinesAux [] content.data).map String.mk

/-- Value of a decimal digit character. -/
def digitValue (c : Char) : Nat := c.toNat - '0'.toNat

/-- Number denoted by a sequence of decimal digits, most significant first. -/
def natValue (cs : List Char) : Nat := cs.foldl (fun acc c => 10 * acc + digitValue c) 0

/-- Integer denoted by a decimal numeral with an optional leading `-`. -/
def decimalValue (s : String) : Int :=
  if s.data.head? = some '-' then -(natValue s.data.tail : Int) else (natValue s.data : Int)

/-! ## Sample inputs -/

/-- Every step succeeds and the command prints nothing. -/
def okOutcomes : StepOutcomes := ⟨none, none, none, none, "", ""⟩

/-- The command exits non-zero after writing to stderr. -/
def runFails : StepOutcomes := ⟨none, none, none, some "exit status 1", "", "port in use"⟩

/-- The work directory cannot be created. -/
def mkdirFails : StepOutcomes :=
  ⟨some "mkdir /tmp/deploy-42: permission denied", none, none, none, "", ""⟩

/-- Request of the scenario with identifier 42 and no environment variable. -/
def req42 : DeployRequest := ⟨42, "web", "version: \x273\x27", []⟩

/-- Request with two environment variables. -/
def reqEnv : DeployRequest := ⟨7, "api", "services:", [("PORT", "8080"), ("MODE", "prod")]⟩

/-- Request with one environment variable whose value spans two lines. -/
def reqNewline : DeployRequest := ⟨7, "api", "services:", [("A", "x\ny")]⟩

/-- Configuration of the sample handler calls. -/
def sampleConfig : Config := ⟨"http://panel", "vps-1", "secret", 30⟩

/-- Body decoder of the sample handler calls: accepts the body `ok` only. -/
def sampleDecode (body : String) : Option DeployRequest :=
  if body = "ok" then some req42 else none

/-- Authorised POST request whose body decodes to request 42. -/
def sampleRequest : Request := ⟨"POST", "Bearer secret", "ok"⟩

/-! ## Auxiliary lemmas -/

theorem reports_append (a b : List Effect) : reports (a ++ b) = reports a ++ reports b := by
  induction a with
  | nil => rfl
  | cons e rest ih => cases e <;> simp [reports, ih]

theorem cleanups_append (a b : List Effect) :
    cleanups (a ++ b) = cleanups a ++ cleanups b := by
  induction a with
  | nil => rfl
  | cons e rest ih => cases e <;> simp [cleanups, ih]

theorem writes_append (a b : List Effect) : writes (a ++ b) = writes a ++ writes b := by
  induction a with
  | nil => rfl
  | cons e rest ih => cases e <;> simp [writes, ih]

theorem commands_append (a b : List Effect) :
    commands (a ++ b) = commands a ++ commands b := by
  induction a with
  | nil => rfl
  | cons e rest ih => cases e <;> simp [commands, ih]

theorem statuses_cases (req : DeployRequest) (o : StepOutcomes) :
    statuses req o = ["deploying", "failed"] ∨
    statuses req o = ["deploying", "deploying", "failed"] ∨
    statuses req o = ["deploying", "deploying", "deploying", "failed"] ∨
    statuses req o = ["deploying", "deploying", "deploying", "deployed"] := by
  rcases o with ⟨_ | e1, _ | e2, _ | e3, _ | e4, so, se⟩ <;>
    simp only [statuses, deployPipeline, materialize, execute] <;>
    (try split_ifs) <;> simp [reports]

theorem materialize_cleanups (req : DeployRequest) (o : StepOutcomes) (workDir : String)
    (logs : List DeploymentLog) : cleanups (materialize req o workDir logs) = [] := by
  rcases o with ⟨m, _ | e2, _ | e3, _ | e4, so, se⟩ <;>
    simp only [materialize, execute] <;> (try split_ifs) <;> simp [cleanups]

theorem materialize_terminal (req : DeployRequest) (o : StepOutcomes) (workDir : String)
    (logs : List DeploymentLog) :
    ∃ t l, (t = "deployed" ∨ t = "failed") ∧
      (reports (materialize req o workDir logs)).getLast? = some (t, l) := by
  rcases o with ⟨m, _ | e2, _ | e3, _ | e4, so, se⟩ <;>
    simp only [materialize, execute] <;> (try split_ifs) <;> simp [reports]

theorem execute_shape (req : DeployRequest) (o : StepOutcomes) (workDir composeFile : String)
    (logs : List DeploymentLog) :
    ∃ post, execute req o workDir composeFile logs =
        [Effect.updateDeploymentStatus req.DeploymentID "deploying"
            (logs ++ [⟨"info", "Executing: docker stack deploy -c docker-compose.yml " ++
              req.Name⟩]),
          Effect.Run (commandArgv composeFile req.Name) workDir] ++ post ∧
      commands post = [] := by
  cases hr : o.runErr with
  | some err => exact ⟨_, by simp only [execute, hr]; rfl, by simp [commands]⟩
  | none => exact ⟨_, by simp only [execute, hr]; rfl, by simp [commands]⟩

theorem materialize_shape (req : DeployRequest) (o : StepOutcomes) (workDir : String)
    (logs : List DeploymentLog) (hco : o.composeErr = none)
    (henv : req.EnvVars = [] ∨ o.envErr = none) :
    ∃ pre logs2, materialize req o workDir logs =
        pre ++ execute req o workDir (filepathJoin workDir "docker-compose.yml") logs2 ∧
      commands pre = [] := by
  by_cases hE : req.EnvVars.length > 0
  · have he : o.envErr = none := by
      rcases henv with h | h
      · simp [h] at hE
      · exact h
    exact ⟨_, _, by simp only [materialize, hco, hE, he, if_true]; rfl, by simp [commands]⟩
  · exact ⟨_, _, by simp only [materialize, hco, hE, if_false]; rfl, by simp [commands]⟩

theorem executing_message (n : String) :
    "Executing: " ++ " ".intercalate (commandArgv "docker-compose.yml" n) =
      "Executing: docker stack deploy -c docker-compose.yml " ++ n := by
  apply String.ext
  simp [commandArgv, String.intercalate, String.intercalate.go, String.append_assoc]

theorem envFile_ne_composeFile (workDir : String) :
    filepathJoin workDir ".env" ≠ filepathJoin workDir "docker-compose.yml" := by
  intro h
  have hd := congrArg String.data h
  simp [filepathJoin] at hd

theorem materialize_writes_noenv (req : DeployRequest) (o : StepOutcomes) (workDir : String)
    (logs : List DeploymentLog) (h : req.EnvVars = []) :
    writes (materialize req o workDir logs) =
      [(filepathJoin workDir "docker-compose.yml", req.DockerCompose)] := by
  have hE : ¬ req.EnvVars.length > 0 := by simp [h]
  rcases o with ⟨m, _ | e2, _ | e3, _ | e4, so, se⟩ <;>
    simp only [materialize, execute, hE, if_false] <;> (try split_ifs) <;> simp [writes]

theorem materialize_writes_env (req : DeployRequest) (o : StepOutcomes) (workDir : String)
    (logs : List DeploymentLog) (h : req.EnvVars ≠ []) (hco : o.composeErr = none) :
    writes (materialize req o workDir logs) =
      [(filepathJoin workDir "docker-compose.yml", req.DockerCompose),
       (filepathJoin workDir ".env", envContent req.EnvVars)] := by
  have hE : req.EnvVars.length > 0 := List.length_pos.2 h
  rcases o with ⟨m, c, _ | e3, _ | e4, so, se⟩ <;> simp only at hco <;> subst hco <;>
    simp only [materialize, execute, hE, if_true] <;> (try split_ifs) <;> simp [writes]

theorem foldl_env_data (l : List (String × String)) : ∀ acc : String,
    (l.foldl (fun acc kv => acc ++ (kv.1 ++ "=" ++ kv.2 ++ "\n")) acc).data =
      acc.data ++ (envContent l).data := by
  induction l with
  | nil => intro acc; simp [envContent]
  | cons kv rest ih =>
    intro acc
    simp only [envContent, List.foldl_cons]
    rw [ih, ih ("" ++ _)]
    simp [envContent]

theorem envContent_cons (kv : String × String) (l : List (String × String)) :
    (envContent (kv :: l)).data =
      (kv.1.data ++ '=' :: kv.2.data) ++ '\n' :: (envContent l).data := by
  simp only [envContent, List.foldl_cons]
  rw [foldl_env_data]
  simp [envContent]

theorem fileLinesAux_line (xs : List Char) : ∀ (cur rest : List Char), '\n' ∉ xs →
    fileLinesAux cur (xs ++ '\n' :: rest) = (cur.reverse ++ xs) :: fileLinesAux [] rest := by
  induction xs with
  | nil => intro cur rest _; simp [fileLinesAux]
  | cons c cs ih =>
    intro cur rest h
    have hc : c ≠ '\n' := fun e => h (by simp [e])
    have hcs : '\n' ∉ cs := fun e => h (by simp [e])
    have step : fileLinesAux cur (c :: (cs ++ '\n' :: rest)) =
        fileLinesAux (c :: cur) (cs ++ '\n' :: rest) := by
      simp only [fileLinesAux, hc, if_false]
    rw [List.cons_append, step, ih _ _ hcs]
    simp

theorem fileLinesAux_envContent (l : List (String × String))
    (h : ∀ kv ∈ l, '\n' ∉ kv.1.data ∧ '\n' ∉ kv.2.data) :
    fileLinesAux [] (envContent l).data = l.map (fun kv => kv.1.data ++ '=' :: kv.2.data) := by
  induction l with
  | nil => simp [envContent, fileLinesAux]
  | cons kv rest ih =>
    have h1 := h kv (by simp)
    have hline : '\n' ∉ kv.1.data ++ '=' :: kv.2.data := by
      simp only [List.mem_append, List.mem_cons, not_or]
      exact ⟨h1.1, by decide, h1.2⟩
    rw [envContent_cons, fileLinesAux_line _ _ _ hline, ih (fun x hx => h x (by simp [hx]))]
    simp

theorem fileLines_envContent (l : List (String × String))
    (h : ∀ kv ∈ l, '\n' ∉ kv.1.data ∧ '\n' ∉ kv.2.data) :
    fileLines (envContent l) = l.map (fun kv => kv.1 ++ "=" ++ kv.2) := by
  simp only [fileLines, fileLinesAux_envContent l h, List.map_map]
  apply List.map_congr_left
  intro kv _
  apply String.ext
  simp

theorem digitValue_digitChar : ∀ d, d < 10 → digitValue (Nat.digitChar d) = d := by decide

theorem digitChar_ne_minus : ∀ d, d < 10 → Nat.digitChar d ≠ '-' := by decide

theorem toDigitsCore_acc (fuel : Nat) : ∀ (n : Nat) (acc : List Char),
    Nat.toDigitsCore 10 fuel n acc = Nat.toDigitsCore 10 fuel n [] ++ acc := by
  induction fuel with
  | zero => intro n acc; simp [Nat.toDigitsCore]
  | succ f ih =>
    intro n acc
    simp only [Nat.toDigitsCore]
    split_ifs with h
    · simp
    · rw [ih (n / 10) (Nat.digitChar (n % 10) :: acc), ih (n / 10) [Nat.digitChar (n % 10)]]
      simp

theorem natValue_snoc (cs : List Char) (c : Char) :
    natValue (cs ++ [c]) = 10 * natValue cs + digitValue c := by
  simp [natValue, List.foldl_append]

theorem natValue_toDigitsCore (fuel : Nat) : ∀ n, n < fuel →
    natValue (Nat.toDigitsCore 10 fuel n []) = n := by
  induction fuel with
  | zero => intro n h; omega
  | succ f ih =>
    intro n hn
    simp only [Nat.toDigitsCore]
    have hd := digitValue_digitChar (n % 10) (Nat.mod_lt _ (by decide))
    split_ifs with h
    · simp only [natValue, List.foldl, hd]
      omega
    · rw [toDigitsCore_acc, natValue_snoc, ih (n / 10) (by omega), hd]
      omega

theorem toDigitsCore_ne_minus (fuel : Nat) : ∀ (n : Nat) (acc : List Char),
    (∀ c ∈ acc, c ≠ '-') → ∀ c ∈ Nat.toDigitsCore 10 fuel n acc, c ≠ '-' := by
  induction fuel with
  | zero => intro n acc h; simpa [Nat.toDigitsCore] using h
  | succ f ih =>
    intro n acc hacc
    have hd := digitChar_ne_minus (n % 10) (Nat.mod_lt _ (by decide))
    have hacc2 : ∀ c ∈ Nat.digitChar (n % 10) :: acc, c ≠ '-' := by
      intro c hc
      rcases List.mem_cons.1 hc with h | h
      · exact h ▸ hd
      · exact hacc c h
    simp only [Nat.toDigitsCore]
    split_ifs with h
    · exact hacc2
    · exact ih _ _ hacc2

theorem natValue_repr (m : Nat) : natValue (Nat.repr m).data = m := by
  simp only [Nat.repr, Nat.toDigits, List.asString]
  exact natValue_toDigitsCore (m + 1) m (by omega)

theorem repr_head_ne_minus (m : Nat) : (Nat.repr m).data.head? ≠ some '-' := by
  intro h
  have hmem : '-' ∈ (Nat.repr m).data := List.mem_of_mem_head? h
  simp only [Nat.repr, Nat.toDigits, List.asString] at hmem
  exact toDigitsCore_ne_minus (m + 1) m [] (by simp) _ hmem rfl

theorem decimalValue_sprintfD (n : Int) : decimalValue (sprintfD n) = n := by
  cases n with
  | ofNat m =>
    show decimalValue (Nat.repr m) = _
    simp only [decimalValue, repr_head_ne_minus m, if_false, natValue_repr]
    rfl
  | negSucc m =>
    show decimalValue ("-" ++ Nat.repr (m + 1)) = _
    have hdata : ("-" ++ Nat.repr (m + 1)).data = '-' :: (Nat.repr (m + 1)).data := by
      simp [String.data_append]
    simp only [decimalValue, hdata, List.head?, List.tail, if_true, natValue_repr]
    rfl

theorem sprintfD_injective : Function.Injective sprintfD :=
  Function.LeftInverse.injective decimalValue_sprintfD

/-! ## Report sequence -/

/-- C1, as stated, fails: on the all-success run of request 42 the terminal
`deployed` report comes after three `deploying` reports, not after exactly one. -/
theorem statuses_three_deploying_before_terminal :
    statuses req42 okOutcomes = ["deploying", "deploying", "deploying", "deployed"] ∧
      ¬ (List.count "deploying" (statuses req42 okOutcomes) = 1) := by
  decide

/-- C1, amended: for every request and every combination of step outcomes the
statuses reported are `k` times `deploying`, with `1 ≤ k ≤ 3`, followed by
exactly one terminal status (`deployed` or `failed`), which is the last report:
`deploying, failed` when creating the directory or writing the compose file
fails, two `deploying` then `failed` when writing the env file fails, three
`deploying` then `failed` when the command fails, and three `deploying` then
`deployed` when every step succeeds. -/
theorem statuses_deploying_then_one_terminal (req : DeployRequest) (o : StepOutcomes) :
    (∃ k t, 1 ≤ k ∧ k ≤ 3 ∧ (t = "deployed" ∨ t = "failed") ∧
      statuses req o = List.replicate k "deploying" ++ [t]) ∧
    statuses req o =
      (if o.mkdirErr.isSome ∨ o.composeErr.isSome then ["deploying", "failed"]
       else if req.EnvVars ≠ [] ∧ o.envErr.isSome then ["deploying", "deploying", "failed"]
       else if o.runErr.isSome then ["deploying", "deploying", "deploying", "failed"]
       else ["deploying", "deploying", "deploying", "deployed"]) := by
  refine ⟨?_, ?_⟩
  · rcases statuses_cases req o with h | h | h | h
    · exact ⟨1, "failed", by decide, by decide, Or.inr rfl, by simpa using h⟩
    · exact ⟨2, "failed", by decide, by decide, Or.inr rfl, by simpa using h⟩
    · exact ⟨3, "failed", by decide, by decide, Or.inr rfl, by simpa using h⟩
    · exact ⟨3, "deployed", by decide, by decide, Or.inl rfl, by simpa using h⟩
  · by_cases hE : req.EnvVars = []
    · have hl : ¬ req.EnvVars.length > 0 := by simp [hE]
      rcases o with ⟨_ | e1, _ | e2, _ | e3, _ | e4, so, se⟩ <;>
        simp [statuses, deployPipeline, materialize, execute, reports, hE]
    · have hl : req.EnvVars.length > 0 := List.length_pos.2 hE
      rcases o with ⟨_ | e1, _ | e2, _ | e3, _ | e4, so, se⟩ <;>
        simp [statuses, deployPipeline, materialize, execute, reports, hE, hl]

/-- C2: the first report carries exactly the log `[info "Starting deployment"]`,
and the log of every later report strictly extends the log of the report before
it (the earlier log is an initial segment of the later, longer one). -/
theorem reports_logs_grow (req : DeployRequest) (o : StepOutcomes) :
    (reports (deployPipeline req o)).head? =
        some ("deploying", [⟨"info", "Starting deployment"⟩]) ∧
      List.Chain' (fun r s => StrictlyExtends r.2 s.2) (reports (deployPipeline req o)) := by
  rcases o with ⟨_ | e1, _ | e2, _ | e3, _ | e4, so, se⟩ <;>
    simp only [deployPipeline, materialize, execute] <;>
    (try split_ifs) <;> simp [reports, StrictlyExtends]

/-! ## Workspace cleanup -/

/-- C3: when creating the work directory fails, `os.RemoveAll` is never called;
when it succeeds, `os.RemoveAll` is called exactly once, on the work directory,
as the last effect of the run, after every report including the terminal one. -/
theorem cleanup_once_after_terminal (req : DeployRequest) (o : StepOutcomes) :
    (o.mkdirErr ≠ none ∧ cleanups (deployPipeline req o) = []) ∨
    (o.mkdirErr = none ∧
      cleanups (deployPipeline req o) = [workDirOf req.DeploymentID] ∧
      ∃ pre t logs, deployPipeline req o =
          pre ++ [Effect.RemoveAll (workDirOf req.DeploymentID)] ∧
        cleanups pre = [] ∧ reports pre = reports (deployPipeline req o) ∧
        (t = "deployed" ∨ t = "failed") ∧ (reports pre).getLast? = some (t, logs)) := by
  cases hm : o.mkdirErr with
  | some err =>
    left
    simp [deployPipeline, hm, cleanups]
  | none =>
    right
    obtain ⟨t, l, ht, hl⟩ :=
      materialize_terminal req o (workDirOf req.DeploymentID) [⟨"info", "Starting deployment"⟩]
    have hc := materialize_cleanups req o (workDirOf req.DeploymentID)
      [⟨"info", "Starting deployment"⟩]
    refine ⟨rfl, ?_, ?_⟩
    · simp [deployPipeline, hm, cleanups, cleanups_append, hc]
    · refine ⟨[Effect.updateDeploymentStatus req.DeploymentID "deploying"
          [⟨"info", "Starting deployment"⟩], Effect.MkdirAll (workDirOf req.DeploymentID)] ++
          materialize req o (workDirOf req.DeploymentID) [⟨"info", "Starting deployment"⟩],
          t, l, ?_, ?_, ?_, ht, ?_⟩
      · simp [deployPipeline, hm]
      · simp [cleanups, hc]
      · simp [deployPipeline, hm, reports, reports_append]
      · rw [reports_append, List.getLast?_append, hl]
        rfl

/-! ## Environment file -/

/-- C4, as stated, fails: a single entry whose value holds a newline is written
as two lines, so the number of lines differs from the number of entries. -/
theorem env_file_newline_value_two_lines :
    writes (deployPipeline reqNewline okOutcomes) =
        [("/tmp/deploy-7/docker-compose.yml", "services:"),
         ("/tmp/deploy-7/.env", "A=x\ny\n")] ∧
      fileLines "A=x\ny\n" = ["A=x", "y"] ∧
      (fileLines "A=x\ny\n").length ≠ reqNewline.EnvVars.length := by
  decide

/-- C4, amended: with no environment variable nothing is written to `.env` and
the `Executing` report's log has no "Environment variables configured" entry;
with at least one (and the directory and compose file written), the files written
are the compose file and then `.env` with the content built from the entries, and
when no key or value contains a newline the lines of that content are the
`KEY=VALUE` strings of the entries, one line per entry in iteration order. -/
theorem env_file_content (req : DeployRequest) (o : StepOutcomes) :
    (req.EnvVars = [] →
      (∀ d, (filepathJoin (workDirOf req.DeploymentID) ".env", d) ∉
        writes (deployPipeline req o)) ∧
      (o.mkdirErr = none → o.composeErr = none →
        Effect.updateDeploymentStatus req.DeploymentID "deploying"
          [⟨"info", "Starting deployment"⟩, ⟨"info", "Docker compose file created"⟩,
           ⟨"info", "Executing: docker stack deploy -c docker-compose.yml " ++ req.Name⟩]
          ∈ deployPipeline req o)) ∧
    (req.EnvVars ≠ [] → o.mkdirErr = none → o.composeErr = none →
      writes (deployPipeline req o) =
        [(filepathJoin (workDirOf req.DeploymentID) "docker-compose.yml", req.DockerCompose),
         (filepathJoin (workDirOf req.DeploymentID) ".env", envContent req.EnvVars)] ∧
      ((∀ kv ∈ req.EnvVars, '\n' ∉ kv.1.data ∧ '\n' ∉ kv.2.data) →
        fileLines (envContent req.EnvVars) =
          req.EnvVars.map (fun kv => kv.1 ++ "=" ++ kv.2))) := by
  refine ⟨fun h => ⟨?_, ?_⟩, fun h hmk hco => ⟨?_, fileLines_envContent req.EnvVars⟩⟩
  · intro d hd
    cases hm : o.mkdirErr with
    | some err => simp [deployPipeline, hm, writes] at hd
    | none =>
      have hw : writes (deployPipeline req o) =
          [(filepathJoin (workDirOf req.DeploymentID) "docker-compose.yml",
            req.DockerCompose)] := by
        simp [deployPipeline, hm, writes_append, writes, materialize_writes_noenv req o _ _ h]
      rw [hw, List.mem_singleton, Prod.mk.injEq] at hd
      exact envFile_ne_composeFile _ hd.1
  · intro hmk hco
    have hE : ¬ req.EnvVars.length > 0 := by simp [h]
    cases hr : o.runErr <;>
      simp [deployPipeline, materialize, execute, hmk, hco, hE, hr]
  · simp [deployPipeline, hmk, writes_append, writes, materialize_writes_env req o _ _ h hco]

/-- Witness of C4 (amended): the request without variables writes no `.env`
file, and the two-variable request writes the lines `PORT=8080` and `MODE=prod`. -/
theorem env_file_content_witness :
    (∀ d, (filepathJoin (workDirOf req42.DeploymentID) ".env", d) ∉
        writes (deployPipeline req42 okOutcomes)) ∧
      fileLines (envContent reqEnv.EnvVars) = ["PORT=8080", "MODE=prod"] :=
  ⟨((env_file_content req42 okOutcomes).1 rfl).1,
   ((env_file_content reqEnv okOutcomes).2 (by decide) rfl rfl).2 (by decide)⟩

/-! ## Outcome of the external command -/

/-- C5: when the workspace is prepared and the command returns the error `err`,
the reports are `deploying` reports followed by a last report of status `failed`
whose log is the log of the preceding `Executing` report extended by the error
entry "Deployment failed: err" and then, exactly when stderr is non-empty, by an
error entry holding stderr; nothing else is appended and no `deployed` report is
issued. -/
theorem command_failure_report (req : DeployRequest) (o : StepOutcomes) (err : String)
    (hmk : o.mkdirErr = none) (hco : o.composeErr = none)
    (henv : req.EnvVars = [] ∨ o.envErr = none) (hrun : o.runErr = some err) :
    ∃ init base, reports (deployPipeline req o) =
        init ++ [("deploying", base),
          ("failed", base ++ [⟨"error", "Deployment failed: " ++ err⟩] ++
            (if o.stderr = "" then [] else [⟨"error", o.stderr⟩]))] ∧
      (∀ r ∈ init, r.1 = "deploying") ∧ "deployed" ∉ statuses req o := by
  rcases o with ⟨m, c, e, r, so, se⟩
  simp only at hmk hco henv hrun
  subst hmk hco hrun
  by_cases hE : req.EnvVars.length > 0
  · have he : e = none := by
      rcases henv with h | h
      · simp [h] at hE
      · exact h
    subst he
    refine ⟨[("deploying", [⟨"info", "Starting deployment"⟩]),
      ("deploying", [⟨"info", "Starting deployment"⟩, ⟨"info", "Docker compose file created"⟩])],
      [⟨"info", "Starting deployment"⟩, ⟨"info", "Docker compose file created"⟩,
       ⟨"info", "Environment variables configured"⟩,
       ⟨"info", "Executing: docker stack deploy -c docker-compose.yml " ++ req.Name⟩], ?_, ?_, ?_⟩
    · by_cases hs : se = "" <;>
        simp [deployPipeline, materialize, execute, hE, reports, hs]
    · simp
    · by_cases hs : se = "" <;>
        simp [statuses, deployPipeline, materialize, execute, hE, reports, hs]
  · refine ⟨[("deploying", [⟨"info", "Starting deployment"⟩]),
      ("deploying", [⟨"info", "Starting deployment"⟩, ⟨"info", "Docker compose file created"⟩])],
      [⟨"info", "Starting deployment"⟩, ⟨"info", "Docker compose file created"⟩,
       ⟨"info", "Executing: docker stack deploy -c docker-compose.yml " ++ req.Name⟩], ?_, ?_, ?_⟩
    · by_cases hs : se = "" <;>
        simp [deployPipeline, materialize, execute, hE, reports, hs]
    · simp
    · by_cases hs : se = "" <;>
        simp [statuses, deployPipeline, materialize, execute, hE, reports, hs]

/-- Witness of C5: request 42 with a command that exits non-zero after writing
"port in use" to stderr. -/
theorem command_failure_report_witness :
    runFails.runErr = some "exit status 1" ∧
    ∃ init base, reports (deployPipeline req42 runFails) =
        init ++ [("deploying", base),
          ("failed", base ++ [⟨"error", "Deployment failed: " ++ "exit status 1"⟩] ++
            (if runFails.stderr = "" then [] else [⟨"error", runFails.stderr⟩]))] ∧
      (∀ r ∈ init, r.1 = "deploying") ∧ "deployed" ∉ statuses req42 runFails :=
  ⟨rfl, command_failure_report req42 runFails "exit status 1" rfl rfl (Or.inl rfl) rfl⟩

/-- C6: with no environment variable and every step succeeding, the reports are
exactly three `deploying` reports with logs of length 1, 2 and 3, then one
`deployed` report whose log is the third log, then stdout as an info entry exactly
when stdout is non-empty, then "Deployment completed successfully"; the work
directory of identifier 42 is `/tmp/deploy-42`, it is created and then removed. -/
theorem success_without_env_reports (req : DeployRequest) (o : StepOutcomes)
    (henv : req.EnvVars = []) (hmk : o.mkdirErr = none) (hco : o.composeErr = none)
    (hrun : o.runErr = none) :
    (∃ l1 l2 l3, l1.length = 1 ∧ l2.length = 2 ∧ l3.length = 3 ∧
      reports (deployPipeline req o) =
        [("deploying", l1), ("deploying", l2), ("deploying", l3),
         ("deployed", l3 ++ (if o.stdout = "" then [] else [⟨"info", o.stdout⟩]) ++
            [⟨"info", "Deployment completed successfully"⟩])]) ∧
    workDirOf 42 = "/tmp/deploy-42" ∧
    Effect.MkdirAll (workDirOf req.DeploymentID) ∈ deployPipeline req o ∧
    cleanups (deployPipeline req o) = [workDirOf req.DeploymentID] := by
  rcases o with ⟨m, c, e, r, so, se⟩
  simp only at hmk hco hrun
  subst hmk hco hrun
  refine ⟨⟨[⟨"info", "Starting deployment"⟩],
      [⟨"info", "Starting deployment"⟩, ⟨"info", "Docker compose file created"⟩],
      [⟨"info", "Starting deployment"⟩, ⟨"info", "Docker compose file created"⟩,
       ⟨"info", "Executing: docker stack deploy -c docker-compose.yml " ++ req.Name⟩],
      rfl, rfl, rfl, ?_⟩, by decide, ?_, ?_⟩
  · by_cases hs : so = "" <;>
      simp [deployPipeline, materialize, execute, henv, reports, hs]
  · simp [deployPipeline]
  · by_cases hs : so = "" <;>
      simp [deployPipeline, materialize, execute, henv, cleanups, hs]

/-- Witness of C6: the scenario request 42 with every step succeeding. -/
theorem success_without_env_reports_witness :
    req42.EnvVars = [] ∧
    (∃ l1 l2 l3, l1.length = 1 ∧ l2.length = 2 ∧ l3.length = 3 ∧
      reports (deployPipeline req42 okOutcomes) =
        [("deploying", l1), ("deploying", l2), ("deploying", l3),
         ("deployed", l3 ++
            (if okOutcomes.stdout = "" then [] else [⟨"info", okOutcomes.stdout⟩]) ++
            [⟨"info", "Deployment completed successfully"⟩])]) ∧
    workDirOf 42 = "/tmp/deploy-42" ∧
    Effect.MkdirAll (workDirOf req42.DeploymentID) ∈ deployPipeline req42 okOutcomes ∧
    cleanups (deployPipeline req42 okOutcomes) = [workDirOf req42.DeploymentID] :=
  ⟨rfl, success_without_env_reports req42 okOutcomes rfl rfl rfl rfl⟩

/-- C7: when creating the work directory fails with `err`, the whole run is the
`deploying` report with log `[Starting deployment]`, the `os.MkdirAll` call, and a
`failed` report whose log adds one error entry carrying `err`: two reports, no
file write, no command, no cleanup. -/
theorem mkdir_failure_trace (req : DeployRequest) (o : StepOutcomes) (err : String)
    (h : o.mkdirErr = some err) :
    deployPipeline req o =
      [Effect.updateDeploymentStatus req.DeploymentID "deploying"
          [⟨"info", "Starting deployment"⟩],
       Effect.MkdirAll (workDirOf req.DeploymentID),
       Effect.updateDeploymentStatus req.DeploymentID "failed"
          [⟨"info", "Starting deployment"⟩,
           ⟨"error", "Failed to create work directory: " ++ err⟩]] := by
  simp [deployPipeline, h]

/-- Witness of C7: request 42 when `/tmp` is not writable. -/
theorem mkdir_failure_trace_witness :
    mkdirFails.mkdirErr = some "mkdir /tmp/deploy-42: permission denied" ∧
    deployPipeline req42 mkdirFails =
      [Effect.updateDeploymentStatus 42 "deploying" [⟨"info", "Starting deployment"⟩],
       Effect.MkdirAll "/tmp/deploy-42",
       Effect.updateDeploymentStatus 42 "failed"
          [⟨"info", "Starting deployment"⟩,
           ⟨"error", "Failed to create work directory: " ++
             "mkdir /tmp/deploy-42: permission denied"⟩]] :=
  ⟨rfl, mkdir_failure_trace req42 mkdirFails "mkdir /tmp/deploy-42: permission denied" rfl⟩

/-! ## Request intake -/

theorem mem_interleavings_singleton {α : Type} (x : α) (a : List α) : ∀ t : List α,
    t ∈ interleavings a [x] ↔ ∃ k, k ≤ a.length ∧ t = a.take k ++ x :: a.drop k := by
  induction a with
  | nil =>
    intro t
    simp [interleavings]
  | cons e es ih =>
    intro t
    have hunf : interleavings (e :: es) [x] =
        (interleavings es [x]).map (fun u => e :: u) ++ [x :: e :: es] := by
      simp [interleavings, weave]
    rw [hunf, List.mem_append, List.mem_map, List.mem_singleton]
    constructor
    · rintro (⟨u, hu, rfl⟩ | rfl)
      · obtain ⟨k, hk, rfl⟩ := (ih u).1 hu
        exact ⟨k + 1, by simpa using hk, by simp⟩
      · exact ⟨0, Nat.zero_le _, by simp⟩
    · rintro ⟨k, hk, rfl⟩
      cases k with
      | zero => right; simp
      | succ k =>
        left
        exact ⟨es.take k ++ x :: es.drop k,
          (ih _).2 ⟨k, by simpa using hk, rfl⟩, by simp⟩

theorem runs_go_respond (o : StepOutcomes) (req : DeployRequest) (resp : Response)
    (t : List Event) :
    t ∈ runs o [HandlerStep.go req, HandlerStep.respond resp] ↔
      ∃ k, k ≤ (deployPipeline req o).length ∧
        t = ((deployPipeline req o).take k).map Event.effect ++
          Event.answer resp :: ((deployPipeline req o).drop k).map Event.effect := by
  have hr : runs o [HandlerStep.go req, HandlerStep.respond resp] =
      interleavings ((deployPipeline req o).map Event.effect) [Event.answer resp] := by
    simp [runs]
  rw [hr, mem_interleavings_singleton]
  simp [List.map_take, List.map_drop]

/-- C8: for a POST request, either the Authorization header differs from
`Bearer <APIKey>` and the handler thread only answers 401, starting no goroutine;
or it matches, the body does not decode, and the thread only answers 400, starting
no goroutine; or it matches, the body decodes to `req`, and the thread starts
exactly one goroutine for `req` and then answers 200 with the fields `message`
and `deploymentId`.  In that case the handler does not wait for the pipeline:
whatever the step outcomes, the executions are exactly those in which the answer
is written after any number `k` of the pipeline's effects, `k = 0` (before the
pipeline has done anything) included. -/
theorem handleDeploy_post_outcomes (config : Config)
    (decode : String → Option DeployRequest) (r : Request) (hpost : r.Method = "POST") :
    (r.Authorization ≠ "Bearer " ++ config.APIKey ∧
      handleDeploy config decode r =
        [HandlerStep.respond (Response.error 401 "Unauthorized")]) ∨
    (r.Authorization = "Bearer " ++ config.APIKey ∧ decode r.Body = none ∧
      handleDeploy config decode r =
        [HandlerStep.respond (Response.error 400 "Invalid request body")]) ∨
    (r.Authorization = "Bearer " ++ config.APIKey ∧
      ∃ req, decode r.Body = some req ∧
        handleDeploy config decode r =
          [HandlerStep.go req,
           HandlerStep.respond (Response.json 200
             [("deploymentId", sprintfD req.DeploymentID),
              ("message", "Deployment initiated")])] ∧
        ∀ (o : StepOutcomes) (t : List Event),
          t ∈ runs o (handleDeploy config decode r) ↔
            ∃ k, k ≤ (deployPipeline req o).length ∧
              t = ((deployPipeline req o).take k).map Event.effect ++
                Event.answer (Response.json 200
                  [("deploymentId", sprintfD req.DeploymentID),
                   ("message", "Deployment initiated")]) ::
                ((deployPipeline req o).drop k).map Event.effect) := by
  by_cases ha : r.Authorization = "Bearer " ++ config.APIKey
  · cases hd : decode r.Body with
    | none => right; left; simp [handleDeploy, hpost, ha, hd]
    | some req =>
      right; right
      have hs : handleDeploy config decode r =
          [HandlerStep.go req,
           HandlerStep.respond (Response.json 200
             [("deploymentId", sprintfD req.DeploymentID),
              ("message", "Deployment initiated")])] := by
        simp [handleDeploy, hpost, ha, hd]
      refine ⟨ha, req, rfl, hs, fun o t => ?_⟩
      rw [hs]
      exact runs_go_respond o req _ t
  · left; simp [handleDeploy, hpost, ha]

/-- Witness of C8: an authorised POST whose body decodes to request 42. -/
theorem handleDeploy_post_outcomes_witness :
    sampleRequest.Method = "POST" ∧
    ((sampleRequest.Authorization ≠ "Bearer " ++ sampleConfig.APIKey ∧
      handleDeploy sampleConfig sampleDecode sampleRequest =
        [HandlerStep.respond (Response.error 401 "Unauthorized")]) ∨
    (sampleRequest.Authorization = "Bearer " ++ sampleConfig.APIKey ∧
      sampleDecode sampleRequest.Body = none ∧
      handleDeploy sampleConfig sampleDecode sampleRequest =
        [HandlerStep.respond (Response.error 400 "Invalid request body")]) ∨
    (sampleRequest.Authorization = "Bearer " ++ sampleConfig.APIKey ∧
      ∃ req, sampleDecode sampleRequest.Body = some req ∧
        handleDeploy sampleConfig sampleDecode sampleRequest =
          [HandlerStep.go req,
           HandlerStep.respond (Response.json 200
             [("deploymentId", sprintfD req.DeploymentID),
              ("message", "Deployment initiated")])] ∧
        ∀ (o : StepOutcomes) (t : List Event),
          t ∈ runs o (handleDeploy sampleConfig sampleDecode sampleRequest) ↔
            ∃ k, k ≤ (deployPipeline req o).length ∧
              t = ((deployPipeline req o).take k).map Event.effect ++
                Event.answer (Response.json 200
                  [("deploymentId", sprintfD req.DeploymentID),
                   ("message", "Deployment initiated")]) ::
                ((deployPipeline req o).drop k).map Event.effect)) :=
  ⟨rfl, handleDeploy_post_outcomes sampleConfig sampleDecode sampleRequest rfl⟩

/-! ## Work directory -/

/-- C9: the work directory of identifier `n` is `/tmp/deploy-` followed by the
decimal rendering of `n` (a numeral that denotes `n`, negative identifiers
included), and distinct identifiers have distinct work directories. -/
theorem workDirOf_injective : Function.Injective workDirOf ∧
    ∀ n, workDirOf n = "/tmp/deploy-" ++ sprintfD n ∧ decimalValue (sprintfD n) = n := by
  refine ⟨?_, fun n => ⟨?_, decimalValue_sprintfD n⟩⟩
  · intro a b h
    apply sprintfD_injective
    have hd := congrArg String.data h
    simp [workDirOf, filepathJoin] at hd
    exact String.ext hd
  · apply String.ext
    simp [workDirOf, filepathJoin]

/-! ## Logged command -/

/-- C10, as stated, fails: for request 42 the process receives the compose file
as `/tmp/deploy-42/docker-compose.yml`, while the logged entry names it
`docker-compose.yml`; the logged text is not the argument list joined by spaces. -/
theorem executing_entry_differs_from_argv :
    Effect.Run (commandArgv "/tmp/deploy-42/docker-compose.yml" "web") "/tmp/deploy-42"
        ∈ deployPipeline req42 okOutcomes ∧
      (∃ logs, Effect.updateDeploymentStatus 42 "deploying"
          (logs ++ [⟨"info", "Executing: docker stack deploy -c docker-compose.yml web"⟩])
        ∈ deployPipeline req42 okOutcomes) ∧
      "Executing: docker stack deploy -c docker-compose.yml web" ≠
        "Executing: " ++
          " ".intercalate (commandArgv "/tmp/deploy-42/docker-compose.yml" "web") := by
  refine ⟨by decide, ⟨[⟨"info", "Starting deployment"⟩,
    ⟨"info", "Docker compose file created"⟩], by decide⟩, by decide⟩

/-- C10, amended: when the run reaches the execution step, a `deploying` report
whose last log entry is "Executing: " followed by the program name and arguments
joined by single spaces, with the compose file named `docker-compose.yml`
relative to the work directory, comes right before the only command of the run;
that command receives the compose file as the work directory joined with
`docker-compose.yml` and runs with the work directory as its directory. -/
theorem executing_entry_relative_compose_file (req : DeployRequest) (o : StepOutcomes)
    (hmk : o.mkdirErr = none) (hco : o.composeErr = none)
    (henv : req.EnvVars = [] ∨ o.envErr = none) :
    ∃ pre logs post, deployPipeline req o =
        pre ++ [Effect.updateDeploymentStatus req.DeploymentID "deploying"
            (logs ++ [⟨"info", "Executing: " ++
              " ".intercalate (commandArgv "docker-compose.yml" req.Name)⟩]),
          Effect.Run
            (commandArgv (filepathJoin (workDirOf req.DeploymentID) "docker-compose.yml")
              req.Name)
            (workDirOf req.DeploymentID)] ++ post ∧
      commands pre = [] ∧ commands post = [] := by
  obtain ⟨pre, logs2, hm, hpre⟩ := materialize_shape req o (workDirOf req.DeploymentID)
    [⟨"info", "Starting deployment"⟩] hco henv
  obtain ⟨post, hx, hpost⟩ := execute_shape req o (workDirOf req.DeploymentID)
    (filepathJoin (workDirOf req.DeploymentID) "docker-compose.yml") logs2
  refine ⟨[Effect.updateDeploymentStatus req.DeploymentID "deploying"
      [⟨"info", "Starting deployment"⟩], Effect.MkdirAll (workDirOf req.DeploymentID)] ++ pre,
    logs2, post ++ [Effect.RemoveAll (workDirOf req.DeploymentID)], ?_, ?_, ?_⟩
  · rw [executing_message]
    simp only [deployPipeline, hmk, List.nil_append]
    rw [hm, hx]
    simp
  · simp [commands_append, commands, hpre]
  · simp [commands_append, commands, hpost]

/-- Witness of C10 (amended): the two-variable request with every step
succeeding. -/
theorem executing_entry_relative_compose_file_witness :
    okOutcomes.mkdirErr = none ∧
    ∃ pre logs post, deployPipeline reqEnv okOutcomes =
        pre ++ [Effect.updateDeploymentStatus reqEnv.DeploymentID "deploying"
            (logs ++ [⟨"info", "Executing: " ++
              " ".intercalate (commandArgv "docker-compose.yml" reqEnv.Name)⟩]),
          Effect.Run
            (commandArgv (filepathJoin (workDirOf reqEnv.DeploymentID) "docker-compose.yml")
              reqEnv.Name)
            (workDirOf reqEnv.DeploymentID)] ++ post ∧
      commands pre = [] ∧ commands post = [] :=
  ⟨rfl, executing_entry_relative_compose_file reqEnv okOutcomes rfl rfl (Or.inr rfl)⟩

end Agent
